import Mathlib

/-!
Verification of the capture → ingest → index → retrieve pipeline.

This file gives a shallow embedding, in Lean, of the behaviourally relevant
parts of the system: the PII detection and redaction engine
(src/utils/privacy.py), the entity-label mapping and the unified semantic
store (src/src/store/semantic_store.py), the clipboard monitor
(src/capture/clipboard_monitor.py), the screen capturer
(src/capture/screen_capture.py), the file watcher
(src/capture/file_watcher.py), and the model router and RAG engine
(src/thought/router.py, src/thought/rag.py).  Python regular-expression
matching (backtracking, leftmost, greedy, IGNORECASE) is embedded by a small
executable matcher; `hashlib.sha256(...).hexdigest()` is embedded by an
executable SHA-256 over `Nat`; SQLite tables are embedded as Lean lists in
insertion (rowid) order; wall-clock timestamps (`datetime.now()`) are
embedded as an explicit stream of timestamp strings carried in the state.
-/

/-! ## A backtracking regular-expression matcher

Embeds the semantics of Python `re` for the constructs used by
`PII_PATTERNS`: character classes, alternation (leftmost priority), greedy
counted repetition, word boundaries `\b`, negative lookahead `(?!...)`, and
the `re.IGNORECASE` flag (all patterns in the source are compiled with it).
-/

/-- One member of a character class: a literal character or a range. -/
inductive CItem where
  | ch (c : Char)
  | range (lo hi : Char)
  deriving Repr, DecidableEq

/-- Regular expressions, as used by the patterns in `PII_PATTERNS`. -/
inductive RE where
  | eps
  | cls (neg : Bool) (items : List CItem)
  | lits (cs : List Char)
  | seq (a b : RE)
  | alt (a b : RE)
  | rep (a : RE) (lo : Nat) (hi : Option Nat)
  | wordB
  | nla (a : RE)
  deriving Repr

/-- Characters counted as word characters by `\b` (ASCII `\w`). -/
def wordChar (c : Char) : Bool := c.isAlphanum || c == '_'

def itemMatch (it : CItem) (c : Char) : Bool :=
  match it with
  | .ch a => a == c
  | .range lo hi => lo.toNat ≤ c.toNat && c.toNat ≤ hi.toNat

/-- Class membership under `re.IGNORECASE`: a character hits an item if it or
one of its case foldings does. -/
def itemMatchCI (it : CItem) (c : Char) : Bool :=
  itemMatch it c || itemMatch it c.toLower || itemMatch it c.toUpper

def clsMatch (neg : Bool) (items : List CItem) (c : Char) : Bool :=
  let hit := items.any (fun it => itemMatchCI it c)
  if neg then !hit else hit

/-- Case-insensitive character comparison for literal runs. -/
def eqCI (a b : Char) : Bool := a == b || a.toLower == b.toLower

/-- Consume a literal character run (case-insensitively).  The scan state is
the previous character (for `\b`), the remaining input, and the absolute
position. -/
def matLits (cs : List Char) (prev : Option Char) (rest : List Char) (i : Nat)
    (k : Option Char → List Char → Nat → Option (Option Char × List Char × Nat)) :
    Option (Option Char × List Char × Nat) :=
  match cs with
  | [] => k prev rest i
  | c :: cs₂ =>
    match rest with
    | d :: rest₂ => if eqCI c d then matLits cs₂ (some d) rest₂ (i + 1) k else none
    | [] => none

/-- Is there a word boundary between `prev` and the head of `rest`? -/
def atWordBoundary (prev : Option Char) (rest : List Char) : Bool :=
  let pw := match prev with | some c => wordChar c | none => false
  let cw := match rest with | c :: _ => wordChar c | [] => false
  pw != cw

/-- The backtracking matcher, in continuation-passing style.  The
continuation receives the scan state after the current sub-expression; the
first continuation success (in Python backtracking priority order: leftmost
alternative first, greedy repetitions longest first) is the overall result.
`fuel` bounds recursion depth and is chosen large enough to never run out on
the inputs considered. -/
def mat (fuel : Nat) (re : RE) (prev : Option Char) (rest : List Char) (i : Nat)
    (k : Option Char → List Char → Nat → Option (Option Char × List Char × Nat)) :
    Option (Option Char × List Char × Nat) :=
  match fuel with
  | 0 => none
  | fuel₂ + 1 =>
    match re with
    | .eps => k prev rest i
    | .cls neg items =>
      match rest with
      | c :: rest₂ => if clsMatch neg items c then k (some c) rest₂ (i + 1) else none
      | [] => none
    | .lits cs => matLits cs prev rest i k
    | .seq a b => mat fuel₂ a prev rest i (fun p r j => mat fuel₂ b p r j k)
    | .alt a b =>
      match mat fuel₂ a prev rest i k with
      | some res => some res
      | none => mat fuel₂ b prev rest i k
    | .rep a lo hi =>
      match lo with
      | lo₂ + 1 =>
        mat fuel₂ a prev rest i (fun p r j => mat fuel₂ (.rep a lo₂ (hi.map Nat.pred)) p r j k)
      | 0 =>
        match hi with
        | some 0 => k prev rest i
        | _ =>
          match mat fuel₂ a prev rest i (fun p r j =>
              if j == i then none
              else mat fuel₂ (.rep a 0 (hi.map Nat.pred)) p r j k) with
          | some res => some res
          | none => k prev rest i
    | .wordB => if atWordBoundary prev rest then k prev rest i else none
    | .nla a =>
      match mat fuel₂ a prev rest i (fun p r j => some (p, r, j)) with
      | some _ => none
      | none => k prev rest i

/-- Fuel bound for a single match attempt. -/
def matFuel (rest : List Char) : Nat := 2000 + 8 * rest.length

/-- Try to match `re` at the current position; on success return the scan
state at the end of the match. -/
def matchHere (re : RE) (prev : Option Char) (rest : List Char) (i : Nat) :
    Option (Option Char × List Char × Nat) :=
  mat (matFuel rest) re prev rest i (fun p r j => some (p, r, j))

/-- The scan loop of `re.finditer`: try each position left to right, emit
non-overlapping matches, resume after each match. -/
def findIterAux (re : RE) (fuel : Nat) (prev : Option Char) (rest : List Char) (i : Nat) :
    List (Nat × Nat) :=
  match fuel with
  | 0 => []
  | fuel₂ + 1 =>
    match matchHere re prev rest i with
    | some (p, r, j) =>
      if j > i then (i, j) :: findIterAux re fuel₂ p r j
      else
        match rest with
        | c :: rest₂ => (i, j) :: findIterAux re fuel₂ (some c) rest₂ (i + 1)
        | [] => [(i, j)]
    | none =>
      match rest with
      | c :: rest₂ => findIterAux re fuel₂ (some c) rest₂ (i + 1)
      | [] => []

/-- All non-overlapping matches of `re` in `s`, as `(start, end)` spans, in
scan order — the embedding of `pattern.finditer(text)`. -/
def findIter (s : List Char) (re : RE) : List (Nat × Nat) :=
  findIterAux re (s.length + 1) none s 0

/-! ## The PII patterns of `PII_PATTERNS` (src/utils/privacy.py)

Each regex literal of the source dictionary is transcribed into an `RE`
value, in dictionary (insertion) order.  All are compiled with
`re.IGNORECASE` in the source, which the matcher applies globally.
-/

/-- A single quote character (code point 39). -/
def sqChar : Char := Char.ofNat 39

def rc (c : Char) : RE := .cls false [.ch c]

def rstr (s : String) : RE := .lits s.data

def rcat (l : List RE) : RE := l.foldr RE.seq .eps

def ror : List RE → RE
  | [] => .cls false []
  | [r] => r
  | r :: rs => .alt r (ror rs)

def ropt (r : RE) : RE := .rep r 0 (some 1)

def rplus (r : RE) : RE := .rep r 1 none

def rstar (r : RE) : RE := .rep r 0 none

/-- `\d`. -/
def reDigit : RE := .cls false [.range '0' '9']

/-- The members of `\s` (ASCII). -/
def wsItems : List CItem :=
  [.ch ' ', .ch '\t', .ch '\n', .ch '\x0b', .ch '\x0c', .ch '\r']

/-- `\s`. -/
def reWs : RE := .cls false wsItems

/-- `\b[A-Za-z0-9._%+-]+@[A-Za-z0-9.-]+\.[A-Z|a-z]{2,}\b` -/
def emailRE : RE := rcat
  [.wordB,
   rplus (.cls false [.range 'A' 'Z', .range 'a' 'z', .range '0' '9',
     .ch '.', .ch '_', .ch '%', .ch '+', .ch '-']),
   rc '@',
   rplus (.cls false [.range 'A' 'Z', .range 'a' 'z', .range '0' '9', .ch '.', .ch '-']),
   rc '.',
   .rep (.cls false [.range 'A' 'Z', .ch '|', .range 'a' 'z']) 2 none,
   .wordB]

/-- `[-.\s]` -/
def sepDotDashWs : RE := .cls false ([.ch '-', .ch '.'] ++ wsItems)

/-- `\b(?:\+?1[-.\s]?)?\(?[2-9]\d{2}\)?[-.\s]?\d{3}[-.\s]?\d{4}\b` -/
def phoneUsRE : RE := rcat
  [.wordB,
   ropt (rcat [ropt (rc '+'), rc '1', ropt sepDotDashWs]),
   ropt (rc '('),
   .cls false [.range '2' '9'], .rep reDigit 2 (some 2),
   ropt (rc ')'),
   ropt sepDotDashWs,
   .rep reDigit 3 (some 3),
   ropt sepDotDashWs,
   .rep reDigit 4 (some 4),
   .wordB]

/-- `\b\+?[1-9]\d{1,14}\b` -/
def phoneIntlRE : RE := rcat
  [.wordB, ropt (rc '+'), .cls false [.range '1' '9'], .rep reDigit 1 (some 14), .wordB]

/-- `\b(?:4[0-9]{12}(?:[0-9]{3})?|5[1-5][0-9]{14}|3[47][0-9]{13}|6(?:011|5[0-9]{2})[0-9]{12})\b` -/
def creditCardRE : RE := rcat
  [.wordB,
   ror
     [rcat [rc '4', .rep reDigit 12 (some 12), ropt (.rep reDigit 3 (some 3))],
      rcat [rc '5', .cls false [.range '1' '5'], .rep reDigit 14 (some 14)],
      rcat [rc '3', .cls false [.ch '4', .ch '7'], .rep reDigit 13 (some 13)],
      rcat [rc '6', ror [rstr "011", rcat [rc '5', .rep reDigit 2 (some 2)]],
        .rep reDigit 12 (some 12)]],
   .wordB]

/-- `[-\s]` -/
def sepDashWs : RE := .cls false ([.ch '-'] ++ wsItems)

/-- `\b(?!000|666|9\d{2})\d{3}[-\s]?(?!00)\d{2}[-\s]?(?!0000)\d{4}\b` -/
def ssnRE : RE := rcat
  [.wordB,
   .nla (ror [rstr "000", rstr "666", rcat [rc '9', reDigit, reDigit]]),
   .rep reDigit 3 (some 3),
   ropt sepDashWs,
   .nla (rstr "00"),
   .rep reDigit 2 (some 2),
   ropt sepDashWs,
   .nla (rstr "0000"),
   .rep reDigit 4 (some 4),
   .wordB]

/-- `25[0-5]|2[0-4][0-9]|[01]?[0-9][0-9]?` -/
def ipOctet : RE := ror
  [rcat [rstr "25", .cls false [.range '0' '5']],
   rcat [rc '2', .cls false [.range '0' '4'], reDigit],
   rcat [ropt (.cls false [.ch '0', .ch '1']), reDigit, ropt reDigit]]

/-- `\b(?:(?:25[0-5]|2[0-4][0-9]|[01]?[0-9][0-9]?)\.){3}(?:25[0-5]|2[0-4][0-9]|[01]?[0-9][0-9]?)\b` -/
def ipRE : RE := rcat
  [.wordB, .rep (rcat [ipOctet, rc '.']) 3 (some 3), ipOctet, .wordB]

/-- The two-member quote character class of the api_key pattern. -/
def quoteCls : RE := .cls false [.ch sqChar, .ch '"']

def alnumCls : RE := .cls false [.range 'a' 'z', .range 'A' 'Z', .range '0' '9']

/-- `\b(?:sk-[a-zA-Z0-9]{32,}|api[_-]?key[_-]?[=:]\s*[q"]?[a-zA-Z0-9_-]{20,}[q"]?)\b`
where `q` stands for the single-quote character. -/
def apiKeyRE : RE := rcat
  [.wordB,
   ror
     [rcat [rstr "sk-", .rep alnumCls 32 none],
      rcat [rstr "api", ropt (.cls false [.ch '_', .ch '-']), rstr "key",
        ropt (.cls false [.ch '_', .ch '-']),
        .cls false [.ch '=', .ch ':'],
        rstar reWs,
        ropt quoteCls,
        .rep (.cls false [.range 'a' 'z', .range 'A' 'Z', .range '0' '9', .ch '_', .ch '-'])
          20 none,
        ropt quoteCls]],
   .wordB]

/-- `\b(?:AKIA|ABIA|ACCA|ASIA)[A-Z0-9]{16}\b` -/
def awsKeyRE : RE := rcat
  [.wordB,
   ror [rstr "AKIA", rstr "ABIA", rstr "ACCA", rstr "ASIA"],
   .rep (.cls false [.range 'A' 'Z', .range '0' '9']) 16 (some 16),
   .wordB]

/-- `\bgh[pousr]_[A-Za-z0-9_]{36,}\b` -/
def githubTokenRE : RE := rcat
  [.wordB, rstr "gh",
   .cls false [.ch 'p', .ch 'o', .ch 'u', .ch 's', .ch 'r'],
   rc '_',
   .rep (.cls false [.range 'A' 'Z', .range 'a' 'z', .range '0' '9', .ch '_']) 36 none,
   .wordB]

/-- `(?:password|passwd|pwd)["\s:=]+["q]?[^\s"q]{8,}["q]?` where `q` stands
for the single-quote character. -/
def passwordFieldRE : RE := rcat
  [ror [rstr "password", rstr "passwd", rstr "pwd"],
   rplus (.cls false ([.ch '"'] ++ wsItems ++ [.ch ':', .ch '='])),
   ropt (.cls false [.ch '"', .ch sqChar]),
   .rep (.cls true (wsItems ++ [.ch '"', .ch sqChar])) 8 none,
   ropt (.cls false [.ch '"', .ch sqChar])]

/-- `\bBearer\s+[A-Za-z0-9_-]{20,}\b` -/
def bearerTokenRE : RE := rcat
  [.wordB, rstr "Bearer", rplus reWs,
   .rep (.cls false [.range 'A' 'Z', .range 'a' 'z', .range '0' '9', .ch '_', .ch '-']) 20 none,
   .wordB]

def jwtCls : RE := .cls false [.range 'A' 'Z', .range 'a' 'z', .range '0' '9', .ch '_', .ch '-']

/-- `\beyJ[A-Za-z0-9_-]*\.eyJ[A-Za-z0-9_-]*\.[A-Za-z0-9_-]*\b` -/
def jwtRE : RE := rcat
  [.wordB, rstr "eyJ", rstar jwtCls, rc '.', rstr "eyJ", rstar jwtCls, rc '.',
   rstar jwtCls, .wordB]

/-- One entry of the `PII_PATTERNS` dictionary. -/
structure PIIPattern where
  ptype : String
  regex : RE
  redactWith : String

/-- The `PII_PATTERNS` dictionary, in source (insertion) order. -/
def piiPatterns : List PIIPattern :=
  [⟨"email", emailRE, "[EMAIL REDACTED]"⟩,
   ⟨"phone_us", phoneUsRE, "[PHONE REDACTED]"⟩,
   ⟨"phone_intl", phoneIntlRE, "[PHONE REDACTED]"⟩,
   ⟨"credit_card", creditCardRE, "[CREDIT CARD REDACTED]"⟩,
   ⟨"ssn", ssnRE, "[SSN REDACTED]"⟩,
   ⟨"ip_address", ipRE, "[IP REDACTED]"⟩,
   ⟨"api_key", apiKeyRE, "[API KEY REDACTED]"⟩,
   ⟨"aws_key", awsKeyRE, "[AWS KEY REDACTED]"⟩,
   ⟨"github_token", githubTokenRE, "[GITHUB TOKEN REDACTED]"⟩,
   ⟨"password_field", passwordFieldRE, "[PASSWORD REDACTED]"⟩,
   ⟨"bearer_token", bearerTokenRE, "[BEARER TOKEN REDACTED]"⟩,
   ⟨"jwt", jwtRE, "[JWT REDACTED]"⟩]

/-! ## `PIIDetector.detect` and `PIIDetector.redact`

The default detector (`enabled_types = None`) enables every pattern.
`detect` runs `finditer` for every compiled pattern over the text, collects
`PIIMatch` records, and stably sorts them by start position (Python
`list.sort` is stable).  `redact` replaces the sorted matches from last to
first.
-/

/-- The embedding of a `PIIMatch` record. -/
structure PIIMatch where
  piiType : String
  value : String
  start : Nat
  stop : Nat
  redacted : String
  deriving Repr, DecidableEq

/-- Stable insertion of a match into a list sorted by `start` (a new match
goes after existing matches with the same start). -/
def insertByStart (m : PIIMatch) : List PIIMatch → List PIIMatch
  | [] => [m]
  | n :: ns => if m.start < n.start then m :: n :: ns else n :: insertByStart m ns

/-- Stable sort by start position (the embedding of
`matches.sort(key=lambda m: m.start)`). -/
def sortByStart (l : List PIIMatch) : List PIIMatch :=
  l.foldl (fun acc m => insertByStart m acc) []

/-- `PIIDetector.detect` with every pattern enabled. -/
def detect (text : String) : List PIIMatch :=
  if text.length == 0 then []
  else
    let s := text.data
    let all := (piiPatterns.map (fun p =>
      (findIter s p.regex).map (fun sp =>
        PIIMatch.mk p.ptype (String.mk ((s.drop sp.1).take (sp.2 - sp.1))) sp.1 sp.2
          p.redactWith))).flatten
    sortByStart all

/-- `PIIDetector.redact` (default detector, `pii_types = None`), returning
only the redacted text.  Matches are replaced from end to start. -/
def redactText (text : String) : String :=
  if text.length == 0 then text
  else
    let ms := detect text
    if ms.isEmpty then text
    else
      String.mk (ms.reverse.foldl
        (fun acc m => acc.take m.start ++ m.redacted.data ++ acc.drop m.stop) text.data)

/-! ## SHA-256

The capture modules compute `hashlib.sha256(content.encode("utf-8")).hexdigest()`
(`ClipboardMonitor._compute_content_hash`, `FileWatcher._compute_file_hash`).
This is embedded executably over `Nat`, with 32-bit words represented as
naturals reduced modulo `2 ^ 32`.
-/

/-- UTF-8 encoding of one character, as a list of bytes. -/
def utf8Bytes (c : Char) : List Nat :=
  let n := c.toNat
  if n < 128 then [n]
  else if n < 2048 then [192 + n / 64, 128 + n % 64]
  else if n < 65536 then [224 + n / 4096, 128 + (n / 64) % 64, 128 + n % 64]
  else [240 + n / 262144, 128 + (n / 4096) % 64, 128 + (n / 64) % 64, 128 + n % 64]

/-- UTF-8 encoding of a string (the embedding of `text.encode("utf-8")`). -/
def strUtf8 (s : String) : List Nat := (s.data.map utf8Bytes).flatten

def w32 : Nat := 4294967296

def add32 (a b : Nat) : Nat := (a + b) % w32

def rotr32 (n x : Nat) : Nat := ((x >>> n) ||| (x <<< (32 - n))) % w32

def sha256K : List Nat :=
  [1116352408, 1899447441, 3049323471, 3921009573, 961987163,
   1508970993, 2453635748, 2870763221, 3624381080, 310598401,
   607225278, 1426881987, 1925078388, 2162078206, 2614888103,
   3248222580, 3835390401, 4022224774, 264347078, 604807628,
   770255983, 1249150122, 1555081692, 1996064986, 2554220882,
   2821834349, 2952996808, 3210313671, 3336571891, 3584528711,
   113926993, 338241895, 666307205, 773529912, 1294757372,
   1396182291, 1695183700, 1986661051, 2177026350, 2456956037,
   2730485921, 2820302411, 3259730800, 3345764771, 3516065817,
   3600352804, 4094571909, 275423344, 430227734, 506948616,
   659060556, 883997877, 958139571, 1322822218, 1537002063,
   1747873779, 1955562222, 2024104815, 2227730452, 2361852424,
   2428436474, 2756734187, 3204031479, 3329325298]

/-- SHA-256 padding: append `0x80`, zero bytes, and the 64-bit big-endian
bit length. -/
def sha256Pad (msg : List Nat) : List Nat :=
  let len := msg.length
  let zeros := (119 - len % 64) % 64
  let bitLen := 8 * len
  msg ++ [128] ++ List.replicate zeros 0 ++
    [(bitLen >>> 56) % 256, (bitLen >>> 48) % 256, (bitLen >>> 40) % 256,
     (bitLen >>> 32) % 256, (bitLen >>> 24) % 256, (bitLen >>> 16) % 256,
     (bitLen >>> 8) % 256, bitLen % 256]

/-- Split a byte list into 64-byte chunks. -/
def chunks64 (fuel : Nat) (l : List Nat) : List (List Nat) :=
  match fuel with
  | 0 => []
  | fuel₂ + 1 =>
    match l with
    | [] => []
    | _ => l.take 64 :: chunks64 fuel₂ (l.drop 64)

/-- Pack 4 big-endian bytes into a 32-bit word, for the first 16 schedule
words of a chunk. -/
def words16 (chunk : List Nat) : List Nat :=
  (List.range 16).map (fun i =>
    (chunk.getD (4 * i) 0) * 16777216 + (chunk.getD (4 * i + 1) 0) * 65536 +
    (chunk.getD (4 * i + 2) 0) * 256 + chunk.getD (4 * i + 3) 0)

/-- Extend the 16 schedule words to 64. -/
def extendWords (w : List Nat) (i : Nat) : List Nat :=
  match i with
  | 0 => w
  | i₂ + 1 =>
    let w := extendWords w i₂
    let j := w.length
    let x15 := w.getD (j - 15) 0
    let x2 := w.getD (j - 2) 0
    let s0 := (rotr32 7 x15) ^^^ (rotr32 18 x15) ^^^ (x15 >>> 3)
    let s1 := (rotr32 17 x2) ^^^ (rotr32 19 x2) ^^^ (x2 >>> 10)
    w ++ [(w.getD (j - 16) 0 + s0 + w.getD (j - 7) 0 + s1) % w32]

/-- One round of the SHA-256 compression function. -/
def sha256Round (st : Nat × Nat × Nat × Nat × Nat × Nat × Nat × Nat) (kw : Nat × Nat) :
    Nat × Nat × Nat × Nat × Nat × Nat × Nat × Nat :=
  let (a, b, c, d, e, f, g, h) := st
  let s1 := (rotr32 6 e) ^^^ (rotr32 11 e) ^^^ (rotr32 25 e)
  let ch := (e &&& f) ^^^ ((w32 - 1 - e) &&& g)
  let temp1 := (h + s1 + ch + kw.1 + kw.2) % w32
  let s0 := (rotr32 2 a) ^^^ (rotr32 13 a) ^^^ (rotr32 22 a)
  let maj := (a &&& b) ^^^ (a &&& c) ^^^ (b &&& c)
  let temp2 := (s0 + maj) % w32
  (add32 temp1 temp2, a, b, c, add32 d temp1, e, f, g)

/-- Process one 64-byte chunk. -/
def sha256Chunk (h : List Nat) (chunk : List Nat) : List Nat :=
  let w := extendWords (words16 chunk) 48
  let init := (h.getD 0 0, h.getD 1 0, h.getD 2 0, h.getD 3 0,
               h.getD 4 0, h.getD 5 0, h.getD 6 0, h.getD 7 0)
  let (a, b, c, d, e, f, g, hh) := (sha256K.zip w).foldl sha256Round init
  [add32 (h.getD 0 0) a, add32 (h.getD 1 0) b, add32 (h.getD 2 0) c,
   add32 (h.getD 3 0) d, add32 (h.getD 4 0) e, add32 (h.getD 5 0) f,
   add32 (h.getD 6 0) g, add32 (h.getD 7 0) hh]

def hexChar (n : Nat) : Char := "0123456789abcdef".data.getD n '0'

/-- Lowercase hexadecimal of one byte. -/
def byteHex (b : Nat) : List Char := [hexChar (b / 16), hexChar (b % 16)]

/-- `hashlib.sha256(s.encode("utf-8")).hexdigest()`. -/
def sha256Hex (s : String) : String :=
  let msg := sha256Pad (strUtf8 s)
  let h0 := [1779033703, 3144134277, 1013904242, 2773480762,
             1359893119, 2600822924, 528734635, 1541459225]
  let h := (chunks64 (msg.length / 64 + 1) msg).foldl sha256Chunk h0
  String.mk ((h.map (fun x =>
    byteHex ((x >>> 24) % 256) ++ byteHex ((x >>> 16) % 256) ++
    byteHex ((x >>> 8) % 256) ++ byteHex (x % 256))).flatten)

/-! ## Entity extraction and the entity-label mapping
(src/store/semantic_store.py, `SemanticStore._map_entity_type` and
`SemanticStore._extract_entities`)
-/

/-- `SemanticStore._map_entity_type`: the spaCy-label → entity-type mapping
dictionary with default `"other"`. -/
def mapEntityType (spacyLabel : String) : String :=
  if spacyLabel == "PERSON" then "person"
  else if spacyLabel == "ORG" then "org"
  else if spacyLabel == "DATE" then "date"
  else if spacyLabel == "TIME" then "date"
  else if spacyLabel == "MONEY" then "money"
  else if spacyLabel == "GPE" then "gpe"
  else if spacyLabel == "PRODUCT" then "product"
  else "other"

/-- A spaCy entity span (`doc.ents` element): surface text, spaCy label and
character span. -/
structure SpacyEnt where
  text : String
  label : String
  startChar : Nat
  endChar : Nat
  deriving Repr, DecidableEq

/-- An element of the list built by `SemanticStore._extract_entities`. -/
structure EntityDict where
  text : String
  etype : String
  label : String
  start : Nat
  stop : Nat
  deriving Repr, DecidableEq

/-- `SemanticStore._extract_entities`.  The spaCy pipeline (`self.nlp`) is an
external model; it is embedded as an optional function from text to entity
spans (`none` embeds `self.nlp = None`, in which case the extractor returns
the empty list). -/
def extractEntities (nlp : Option (String → List SpacyEnt)) (text : String) :
    List EntityDict :=
  match nlp with
  | none => []
  | some f =>
    (f text).map (fun e => ⟨e.text, mapEntityType e.label, e.label, e.startChar, e.endChar⟩)

/-! ## The unified semantic store (src/store/semantic_store.py)

`semantic_content` and `entities` are embedded as lists in rowid order;
`AUTOINCREMENT` is embedded by the `nextId` counter.  `datetime.now()` is
embedded as a stream of timestamp strings (`clock`) consumed one value per
`add`.  The LanceDB embedding write is best-effort and external to the
SQLite state; it is not part of the row-store state.
-/

structure SemRow where
  rid : Nat
  content : String
  sourceType : String
  sourceId : Option Nat
  timestamp : String
  metadata : String
  deriving Repr, DecidableEq

structure EntityRow where
  contentId : Nat
  entityText : String
  entityType : String
  startChar : Nat
  endChar : Nat
  deriving Repr, DecidableEq

structure SemState where
  nextId : Nat
  rows : List SemRow
  ents : List EntityRow
  clock : List String
  deriving Repr, DecidableEq

/-- The store created by `_init_database` on a fresh database (SQLite
AUTOINCREMENT ids start at 1), with a given timestamp stream. -/
def semInit (clock : List String) : SemState := ⟨1, [], [], clock⟩

/-- `SemanticStore.add` (with `extract_entities = True`, its default):
insert the content row, then the entity rows for the extracted entities.
Returns the updated state and the assigned id (`cursor.lastrowid`). -/
def addContent (nlp : Option (String → List SpacyEnt)) (st : SemState)
    (content : String) (sourceType : String) (sourceId : Option Nat)
    (metadata : String) : SemState × Nat :=
  let ts := st.clock.headD ""
  let cid := st.nextId
  let row : SemRow := ⟨cid, content, sourceType, sourceId, ts, metadata⟩
  let newEnts := (extractEntities nlp content).map
    (fun e => EntityRow.mk cid e.text e.etype e.start e.stop)
  (⟨cid + 1, st.rows ++ [row], st.ents ++ newEnts, st.clock.tail⟩, cid)

/-- The membership probe of `sync_from_captures`:
`SELECT 1 FROM semantic_content WHERE source_type = ? AND source_id = ?`. -/
def hasSourceRef (st : SemState) (s : String) (r : Nat) : Bool :=
  st.rows.any (fun row => row.sourceType == s && row.sourceId == some r)

/-- One iteration of a sync loop of `sync_from_captures` over a source row
(id, text): rows with NULL or empty text are skipped (the SQL `WHERE`
filter), rows whose `(source_type, source_id)` already has a semantic row
are skipped, and the rest are added with `add`. -/
def syncStep (nlp : Option (String → List SpacyEnt)) (s : String)
    (acc : SemState) (row : Nat × Option String) : SemState :=
  match row.2 with
  | none => acc
  | some t =>
    if t == "" then acc
    else if hasSourceRef acc s row.1 then acc
    else (addContent nlp acc t s (some row.1) "\x7b\x7d").1

/-- One source-table sync loop of `sync_from_captures`.  The membership
probe runs against the live table, so rows added earlier in the same loop
are seen. -/
def syncTable (nlp : Option (String → List SpacyEnt)) (s : String)
    (st : SemState) (rows : List (Nat × Option String)) : SemState :=
  rows.foldl (syncStep nlp s) st

/-- The three capture source tables read by `sync_from_captures`, each as a
list of `(id, text)` pairs (`captures.extracted_text`,
`clipboard_history.content`, `file_history.content`). -/
structure CaptureTables where
  captures : List (Nat × Option String)
  clipboard : List (Nat × Option String)
  fileHistory : List (Nat × Option String)

/-- `SemanticStore.sync_from_captures`. -/
def syncFromCaptures (nlp : Option (String → List SpacyEnt))
    (tabs : CaptureTables) (st : SemState) : SemState :=
  syncTable nlp "file"
    (syncTable nlp "clipboard"
      (syncTable nlp "screen" st tabs.captures) tabs.clipboard) tabs.fileHistory

/-- Uniqueness of present `(source_type, source_id)` pairs over the semantic
content rows. -/
def noDupPairs : List SemRow → Bool
  | [] => true
  | r :: rs =>
    (match r.sourceId with
     | none => true
     | some i => !(rs.any (fun r₂ => r₂.sourceType == r.sourceType && r₂.sourceId == some i)))
    && noDupPairs rs

/-! ## Lexical and semantic search (src/store/semantic_store.py)

`search` joins `semantic_content` with its FTS5 index; FTS5 match semantics
are external to the store and are embedded as a match predicate parameter.
`ORDER BY c.timestamp DESC` is embedded by a stable sort on the rowid-ordered
row list (SQLite string comparison is bytewise, matching code-point order on
these strings).  `semantic_search` needs the LanceDB table handle and the
sentence-transformer model; both are external and embedded as parameters
(`none` embeds an absent index / absent model).
-/

/-- Stable insertion for descending timestamp order. -/
def insertTsDesc (r : SemRow) : List SemRow → List SemRow
  | [] => [r]
  | n :: ns => if n.timestamp < r.timestamp then r :: n :: ns else n :: insertTsDesc r ns

/-- Stable sort of rows by timestamp, newest first. -/
def sortTsDesc (l : List SemRow) : List SemRow :=
  l.foldl (fun acc r => insertTsDesc r acc) []

/-- `SemanticStore.search (query, source_type, limit)`. -/
def searchStore (ftsMatch : String → String → Bool) (st : SemState)
    (q : String) (sourceType : Option String) (limit : Nat) : List SemRow :=
  let matched := st.rows.filter (fun r =>
    ftsMatch q r.content &&
    (match sourceType with
     | none => true
     | some s => r.sourceType == s))
  (sortTsDesc matched).take limit

/-- A LanceDB search hit: a content id and its `_distance`. -/
structure LanceHit where
  hid : Nat
  distance : Rat
  deriving Repr, DecidableEq

/-- A LanceDB table handle: `tbl.search(vec).limit(n).to_list()`. -/
structure LanceTable where
  searchVec : List Rat → Nat → List LanceHit

/-- The enrichment loop of `semantic_search`: look up each hit id in
`semantic_content` (`fetchone`), keeping only ids that resolve. -/
def enrichHits (st : SemState) (hits : List LanceHit) : List (SemRow × Rat) :=
  hits.filterMap (fun h =>
    (st.rows.find? (fun r => r.rid == h.hid)).map (fun r => (r, h.distance)))

/-- The result of `semantic_search`: either the lexical fallback result
(dicts without a distance) or enriched vector hits (dicts with `_distance`). -/
inductive SSResult where
  | lexical (rs : List SemRow)
  | vector (rs : List (SemRow × Rat))
  deriving Repr, DecidableEq

/-- `SemanticStore.semantic_search (query, limit)`.  `lance = none` embeds
`self.lance_table` being unset; `embed q = none` embeds
`_generate_embedding` returning `None` (no model, or `encode` raising); the
falsiness test `if not query_embedding` also sends an empty vector to the
fallback. -/
def semanticSearch (ftsMatch : String → String → Bool) (st : SemState)
    (lance : Option LanceTable) (embed : String → Option (List Rat))
    (q : String) (limit : Nat) : SSResult :=
  match lance with
  | none => .lexical (searchStore ftsMatch st q none limit)
  | some tbl =>
    match embed q with
    | none => .lexical (searchStore ftsMatch st q none limit)
    | some v =>
      if v.isEmpty then .lexical (searchStore ftsMatch st q none limit)
      else .vector (enrichHits st (tbl.searchVec v limit))

/-! ## The model router (src/thought/router.py) -/

def lookupKey : List (String × String) → String → Option String
  | [], _ => none
  | (k, v) :: rest, key => if k == key then some v else lookupKey rest key

def setKey : List (String × String) → String → String → List (String × String)
  | [], k, v => [(k, v)]
  | (k₂, v₂) :: rest, k, v =>
    if k₂ == k then (k₂, v) :: rest else (k₂, v₂) :: setKey rest k v

/-- `ModelRouter.DEFAULT_CONFIG`, in insertion order. -/
def defaultRouterConfig : List (String × String) :=
  [("fast", "llama3.2"), ("balanced", "mistral"),
   ("powerful", "claude-3-5-sonnet-20241022")]

/-- `ModelRouter.__init__`: copy the defaults, then `dict.update` with the
user config (override existing keys, append new ones). -/
def routerInit (config : Option (List (String × String))) : List (String × String) :=
  match config with
  | none => defaultRouterConfig
  | some c => c.foldl (fun acc kv => setKey acc kv.1 kv.2) defaultRouterConfig

/-- `ModelRouter.route`: unknown complexities fall back to the balanced
model. -/
def route (config : List (String × String)) (complexity : String) : String :=
  match lookupKey config complexity with
  | none => (lookupKey config "balanced").getD ""
  | some m => m

/-! ## The RAG engine (src/thought/rag.py)

`RAGEngine.query` retrieves context, formats it, routes to the balanced
model of its router (constructed with the default config in `__init__`),
calls the LLM backend, and returns the canned offline answer when the call
raises.  The backend is external and embedded as a function from
(prompt, model, system) to `Except` (error embeds a raised exception).
-/

/-- `RAGEngine._format_context`. -/
def formatContext (items : List SemRow) : String :=
  if items.isEmpty then "No relevant data found in history."
  else
    String.intercalate "\n\n"
      ((items.enum).map (fun p =>
        let source := "[" ++ p.2.sourceType ++ " - " ++ p.2.timestamp ++ "]"
        let content := p.2.content.trim
        let content := if content.length > 500 then content.take 500 ++ "..." else content
        toString (p.1 + 1) ++ ". " ++ source ++ "\n   " ++ content))

/-- The canned answer returned when the LLM backend call raises. -/
def offlineAnswer : String :=
  "⚠️ **Local AI Offline**\n\nI found relevant content in your history (see below), but I couldn\u0027t generate a summary because the local LLM (Ollama) is not reachable.\n\nPlease ensure Ollama is running (`ollama serve`)."

/-- The system prompt composed by `RAGEngine.query`. -/
def ragSystemPrompt : String :=
  "You are a helpful AI assistant with access to the user\u0027s recorded digital history (screen captures, clipboard, files). \nUse the provided CONTEXT to answer the user\u0027s question.\nIf the answer is found in the context, cite the source type (e.g., \u0027According to your screen history...\u0027).\nIf the answer is NOT in the context, state that you couldn\u0027t find it in their history, then provide a general knowledge answer if possible, clearly distinguishing it from their data."

/-- The structured result of `RAGEngine.query`. -/
structure RagResult where
  answer : String
  context : List SemRow
  modelUsed : String
  deriving Repr, DecidableEq

/-- `RAGEngine.query`, given the retrieved context items (the result of
`semantic_search` on the store of the engine), the router config, and the
backend.  `routerConfig` is `routerInit none` for an engine built by
`RAGEngine.__init__` (which constructs `ModelRouter()`). -/
def ragQuery (contextItems : List SemRow) (routerConfig : List (String × String))
    (llm : String → String → String → Except String String) (userQuery : String) :
    RagResult :=
  let contextText := formatContext contextItems
  let model := route routerConfig "balanced"
  let userPrompt := "Context:\n" ++ contextText ++ "\n\nQuestion: " ++ userQuery
  let answer :=
    match llm userPrompt model ragSystemPrompt with
    | .ok content => content
    | .error _ => offlineAnswer
  ⟨answer, contextItems, model⟩

/-! ## The clipboard monitor (src/capture/clipboard_monitor.py)

`clipboard_history` is embedded as a list in rowid order; the in-memory
duplicate state `self.last_hash` starts as `None`.  Content classification
(`_classify_content`) and the foreground application
(`_get_source_app`) do not influence deduplication and are embedded as
parameters; the clipboard read (`pyperclip.paste()`) is the per-tick input.
-/

structure ClipEntry where
  timestamp : String
  contentHash : String
  content : String
  contentType : String
  sourceApp : String
  deriving Repr, DecidableEq

structure ClipState where
  lastHash : Option String
  rows : List ClipEntry
  clock : List String
  deriving Repr, DecidableEq

/-- The state of a freshly constructed monitor on a fresh database. -/
def clipInit (clock : List String) : ClipState := ⟨none, [], clock⟩

/-- `ClipboardMonitor.capture_once`: read the clipboard, drop empty content,
truncate oversized content, drop duplicates of the last stored hash,
otherwise classify and store. -/
def clipCaptureOnce (classify : String → String) (sourceApp : String)
    (maxContentLength : Nat) (st : ClipState) (clip : String) :
    ClipState × Option ClipEntry :=
  if clip.length == 0 then (st, none)
  else
    let content :=
      if clip.length > maxContentLength then clip.take maxContentLength ++ "... [truncated]"
      else clip
    let h := sha256Hex content
    if st.lastHash == some h then (st, none)
    else
      let ts := st.clock.headD ""
      let entry : ClipEntry := ⟨ts, h, content, classify content, sourceApp⟩
      (⟨some h, st.rows ++ [entry], st.clock.tail⟩, some entry)

/-- A run of the monitor loop: one `capture_once` per poll tick, each tick
supplying the clipboard text and the foreground application. -/
def clipRun (classify : String → String) (maxContentLength : Nat)
    (st : ClipState) (ticks : List (String × String)) : ClipState :=
  ticks.foldl (fun acc t => (clipCaptureOnce classify t.2 maxContentLength acc t.1).1) st

/-- No two consecutive values are equal. -/
def adjacentDistinct : List String → Bool
  | [] => true
  | [_] => true
  | a :: b :: rest => a != b && adjacentDistinct (b :: rest)

/-! ## The screen capturer (src/capture/screen_capture.py)

The `captures` table is embedded as a list in rowid order (keeping, from the
stored metadata, the monitor index).  `self.last_hashes` is the per-monitor
dictionary used by `_has_significant_change`.  One grabbed frame supplies
the monitor index, its perceptual hash (`_compute_image_hash` of the image)
and OCR text; `_capture_monitor` plus the storing caller (`capture_once` in
any mode, or `capture_combined` with index 0) is embedded as one step.
Every capture mode (primary / all / specific / combined) produces some
sequence of such steps.
-/

structure ScreenRow where
  timestamp : String
  screenHash : String
  extractedText : String
  monitorIndex : Nat
  deriving Repr, DecidableEq

structure ScreenState where
  lastHashes : List (Nat × String)
  rows : List ScreenRow
  clock : List String
  deriving Repr, DecidableEq

def screenInit (clock : List String) : ScreenState := ⟨[], [], clock⟩

def lookupHash : List (Nat × String) → Nat → Option String
  | [], _ => none
  | (k, v) :: rest, idx => if k == idx then some v else lookupHash rest idx

def setHash : List (Nat × String) → Nat → String → List (Nat × String)
  | [], idx, h => [(idx, h)]
  | (k, v) :: rest, idx, h =>
    if k == idx then (k, h) :: rest else (k, v) :: setHash rest idx h

/-- `ScreenCapture._has_significant_change`. -/
def hasSignificantChange (lastHashes : List (Nat × String)) (currentHash : String)
    (monitorIndex : Nat) : Bool :=
  match lookupHash lastHashes monitorIndex with
  | none => true
  | some prev => currentHash != prev

/-- One grabbed frame: the monitor index, the perceptual hash of the grabbed
image, and its OCR text. -/
structure Frame where
  monitorIndex : Nat
  imageHash : String
  text : String
  deriving Repr, DecidableEq

/-- One capture step for one monitor: `_capture_monitor` (hash check against
the per-monitor state, state update) followed by `_store_capture` of the
resulting record. -/
def captureMonitor (st : ScreenState) (f : Frame) : ScreenState × Option ScreenRow :=
  if !hasSignificantChange st.lastHashes f.imageHash f.monitorIndex then (st, none)
  else
    let lh := setHash st.lastHashes f.monitorIndex f.imageHash
    let ts := st.clock.headD ""
    let row : ScreenRow := ⟨ts, f.imageHash, f.text, f.monitorIndex⟩
    (⟨lh, st.rows ++ [row], st.clock.tail⟩, some row)

/-- A run of capture steps (the frame sequence produced by any sequence of
`capture_once` calls in any mode). -/
def screenRun (st : ScreenState) (frames : List Frame) : ScreenState :=
  frames.foldl (fun acc f => (captureMonitor acc f).1) st

/-! ## The file watcher (src/capture/file_watcher.py)

`file_history` and `file_versions` are embedded as lists in rowid order.
The file system is external: one event supplies the relevant facts about the
path (`is_file`, `stat` success and size, `path.parts`, lowercased suffix,
absolute path string, name) and the outcome of reading/parsing the file.
-/

def textExtensions : List String := [".txt", ".md", ".markdown", ".rst"]

def codeExtensions : List String :=
  [".py", ".js", ".ts", ".jsx", ".tsx", ".java", ".c", ".cpp", ".h",
   ".cs", ".go", ".rs", ".rb", ".php", ".swift", ".kt", ".scala",
   ".r", ".m", ".sh", ".bash", ".zsh", ".fish", ".sql", ".html",
   ".css", ".scss", ".sass", ".less", ".xml", ".json", ".yaml", ".yml",
   ".toml", ".ini", ".conf", ".cfg"]

def documentExtensions : List String := [".pdf", ".docx", ".doc"]

def defaultIgnorePatterns : List String :=
  ["node_modules", ".git", ".venv", "venv", "__pycache__",
   ".idea", ".vscode", "dist", "build", ".DS_Store"]

structure WatcherCfg where
  maxFileSize : Nat
  ignorePatterns : List String
  deriving Repr

/-- The outcome of `open(path).read()` in `_extract_text_from_txt`: a
successful UTF-8 read, a `UnicodeDecodeError` followed by a successful or
failing latin-1 read, or another exception. -/
inductive ReadResult where
  | ok (text : String)
  | decodeErrOk (text : String)
  | decodeErrFail (e : String)
  | fail (e : String)
  deriving Repr, DecidableEq

/-- The outcome of parsing a PDF (per-page extracted text) or DOCX
(per-paragraph text), or the exception raised. -/
inductive ParseResult where
  | ok (parts : List String)
  | fail (e : String)
  deriving Repr, DecidableEq

/-- The facts about the event path supplied by the file system. -/
structure FileEnv where
  isFile : Bool
  statOk : Bool
  size : Nat
  parts : List String
  suffix : String
  pathStr : String
  name : String
  read : ReadResult
  pdf : ParseResult
  docx : ParseResult
  deriving Repr, DecidableEq

/-- `FileWatcher._should_ignore`. -/
def shouldIgnore (cfg : WatcherCfg) (env : FileEnv) : Bool :=
  cfg.ignorePatterns.any (fun p => env.parts.contains p)

/-- `FileWatcher._should_process`. -/
def shouldProcess (cfg : WatcherCfg) (env : FileEnv) : Bool :=
  if !env.isFile then false
  else if shouldIgnore cfg env then false
  else if !env.statOk then false
  else if env.size > cfg.maxFileSize then false
  else
    textExtensions.contains env.suffix || codeExtensions.contains env.suffix ||
      documentExtensions.contains env.suffix

/-- `FileWatcher._classify_file_type`. -/
def classifyFileType (suffix : String) : String :=
  if textExtensions.contains suffix then "text"
  else if codeExtensions.contains suffix then "code"
  else if suffix == ".pdf" then "pdf"
  else if suffix == ".docx" || suffix == ".doc" then "document"
  else "unknown"

/-- `FileWatcher._extract_text_from_txt`: exceptions become bracketed error
markers. -/
def extractTextFromTxt (r : ReadResult) : String :=
  match r with
  | .ok t => t
  | .decodeErrOk t => t
  | .decodeErrFail e => "[Error reading file: " ++ e ++ "]"
  | .fail e => "[Error reading file: " ++ e ++ "]"

/-- `FileWatcher._extract_text_from_pdf` (`PDF_SUPPORT` is the import flag
for PyPDF2): keep non-empty page texts, join with blank lines, turn raised
exceptions into a bracketed marker. -/
def extractTextFromPdf (pdfSupport : Bool) (r : ParseResult) : String :=
  if !pdfSupport then "[PDF extraction not available - install PyPDF2]"
  else
    match r with
    | .ok pages => String.intercalate "\n\n" (pages.filter (fun t => t != ""))
    | .fail e => "[Error extracting PDF: " ++ e ++ "]"

/-- `FileWatcher._extract_text_from_docx`. -/
def extractTextFromDocx (docxSupport : Bool) (r : ParseResult) : String :=
  if !docxSupport then "[DOCX extraction not available - install python-docx]"
  else
    match r with
    | .ok paras => String.intercalate "\n\n" (paras.filter (fun t => t != ""))
    | .fail e => "[Error extracting DOCX: " ++ e ++ "]"

/-- `FileWatcher._extract_text`: dispatch on the lowercased suffix. -/
def extractText (pdfSupport docxSupport : Bool) (env : FileEnv) : String :=
  if textExtensions.contains env.suffix || codeExtensions.contains env.suffix then
    extractTextFromTxt env.read
  else if env.suffix == ".pdf" then extractTextFromPdf pdfSupport env.pdf
  else if env.suffix == ".docx" || env.suffix == ".doc" then
    extractTextFromDocx docxSupport env.docx
  else "[Unsupported file type]"

structure FileEventRow where
  timestamp : String
  filePath : String
  fileName : String
  operation : String
  contentHash : Option String
  content : Option String
  fileType : String
  fileSize : Option Nat
  deriving Repr, DecidableEq

structure FileVersionRow where
  filePath : String
  version : Nat
  contentHash : String
  timestamp : String
  fileSize : Nat
  deriving Repr, DecidableEq

structure FileDB where
  fileHistory : List FileEventRow
  fileVersions : List FileVersionRow
  clock : List String
  deriving Repr, DecidableEq

def fileDBInit (clock : List String) : FileDB := ⟨[], [], clock⟩

/-- `FileWatcher._get_version_number`:
`SELECT MAX(version) FROM file_versions WHERE file_path = ?`, or 0, plus 1. -/
def getVersionNumber (db : FileDB) (filePath : String) : Nat :=
  (db.fileVersions.foldl
    (fun acc v => if v.filePath == filePath then max acc v.version else acc) 0) + 1

/-- `FileWatcher._store_version`. -/
def storeVersion (db : FileDB) (filePath : String) (contentHash : String)
    (fileSize : Nat) (timestamp : String) : FileDB :=
  { db with fileVersions :=
      db.fileVersions ++ [⟨filePath, getVersionNumber db filePath, contentHash, timestamp, fileSize⟩] }

/-- `FileWatcher._store_event`. -/
def storeEvent (db : FileDB) (ev : FileEventRow) : FileDB :=
  { db with fileHistory := db.fileHistory ++ [ev] }

/-- `FileWatcher.process_file`.  Deleted events skip the existence/size
checks but still require a non-ignored path with a supported extension;
created/modified events go through `_should_process`, text extraction,
hashing, version storage (modified only) and event storage. -/
def processFile (cfg : WatcherCfg) (pdfSupport docxSupport : Bool) (db : FileDB)
    (operation : String) (env : FileEnv) : FileDB × Option FileEventRow :=
  if operation == "deleted" then
    if shouldIgnore cfg env then (db, none)
    else if !(textExtensions.contains env.suffix || codeExtensions.contains env.suffix ||
        documentExtensions.contains env.suffix) then (db, none)
    else
      let ts := db.clock.headD ""
      let db₂ := { db with clock := db.clock.tail }
      let ev : FileEventRow :=
        ⟨ts, env.pathStr, env.name, operation, none, none, classifyFileType env.suffix, none⟩
      (storeEvent db₂ ev, some ev)
  else if !shouldProcess cfg env then (db, none)
  else
    let ts := db.clock.headD ""
    let db₂ := { db with clock := db.clock.tail }
    let content := extractText pdfSupport docxSupport env
    let contentHash := sha256Hex content
    let ev : FileEventRow :=
      ⟨ts, env.pathStr, env.name, operation, some contentHash, some content,
       classifyFileType env.suffix, some env.size⟩
    let db₃ :=
      if operation == "modified" then storeVersion db₂ env.pathStr contentHash env.size ts
      else db₂
    (storeEvent db₃ ev, some ev)

/-- The property claimed of `file_versions`: at most one row per distinct
`content_hash` per `file_path`. -/
def versionHashUnique : List FileVersionRow → Bool
  | [] => true
  | v :: vs =>
    !(vs.any (fun v₂ => v₂.filePath == v.filePath && v₂.contentHash == v.contentHash))
    && versionHashUnique vs

/-! ## Theorems -/

set_option maxRecDepth 10000

/-- C3 (counterexample): PII redaction is not idempotent.  Redacting
`"pwd: secret12"` yields `"[PASSWORD REDACTED]"`, and redacting that again
yields `"[[PASSWORD REDACTED]"`, because the replacement token itself matches
the `password_field` pattern. -/
theorem redact_not_idempotent :
    redactText (redactText "pwd: secret12") ≠ redactText "pwd: secret12" := by
  decide

/-- C3 (amended): every replacement token except `[PASSWORD REDACTED]` is
left unchanged by redaction (it matches no PII pattern), while
`[PASSWORD REDACTED]` itself matches the `password_field` pattern, so
redaction is not idempotent in general. -/
theorem redact_tokens_fixed_except_password :
    (redactText "[EMAIL REDACTED]" = "[EMAIL REDACTED]" ∧
     redactText "[PHONE REDACTED]" = "[PHONE REDACTED]" ∧
     redactText "[CREDIT CARD REDACTED]" = "[CREDIT CARD REDACTED]" ∧
     redactText "[SSN REDACTED]" = "[SSN REDACTED]" ∧
     redactText "[IP REDACTED]" = "[IP REDACTED]" ∧
     redactText "[API KEY REDACTED]" = "[API KEY REDACTED]" ∧
     redactText "[AWS KEY REDACTED]" = "[AWS KEY REDACTED]" ∧
     redactText "[GITHUB TOKEN REDACTED]" = "[GITHUB TOKEN REDACTED]" ∧
     redactText "[BEARER TOKEN REDACTED]" = "[BEARER TOKEN REDACTED]" ∧
     redactText "[JWT REDACTED]" = "[JWT REDACTED]") ∧
    redactText "[PASSWORD REDACTED]" ≠ "[PASSWORD REDACTED]" := by
  decide

/-- C4 (code bug): redacting `"ping 192.168.1.5 and mail a@b.com"` does not
produce `"ping [IP REDACTED] and mail [EMAIL REDACTED]"`.  The `phone_intl`
pattern matches `192` and `168` inside the IP address; the match list passed
to the end-to-start replacement loop therefore contains overlapping spans,
and replacing them garbles the output, leaking part of the IP address. -/
theorem redact_ip_email_garbled :
    redactText "ping 192.168.1.5 and mail a@b.com" =
      "ping [PHONE REDACTED] REDACTED]REDACTED].1.5 and mail [EMAIL REDACTED]" ∧
    redactText "ping 192.168.1.5 and mail a@b.com" ≠
      "ping [IP REDACTED] and mail [EMAIL REDACTED]" := by
  constructor
  · decide
  · decide

/-- C5 (counterexample): the entity extractor does not map the spaCy label
`GPE` to `geopolitical`; it stores `gpe`. -/
theorem mapEntityType_gpe_not_geopolitical :
    mapEntityType "GPE" ≠ "geopolitical" := by decide

/-- C5 (amended): the label mapping is `PERSON→person`, `ORG→org`,
`DATE→date`, `TIME→date`, `MONEY→money`, `GPE→gpe`, `PRODUCT→product`, and
any other label maps to `other`. -/
theorem mapEntityType_spec :
    (mapEntityType "PERSON" = "person" ∧
     mapEntityType "ORG" = "org" ∧
     mapEntityType "DATE" = "date" ∧
     mapEntityType "TIME" = "date" ∧
     mapEntityType "MONEY" = "money" ∧
     mapEntityType "GPE" = "gpe" ∧
     mapEntityType "PRODUCT" = "product") ∧
    ∀ label : String, label ≠ "PERSON" → label ≠ "ORG" → label ≠ "DATE" →
      label ≠ "TIME" → label ≠ "MONEY" → label ≠ "GPE" → label ≠ "PRODUCT" →
      mapEntityType label = "other" := by
  refine ⟨by decide, ?_⟩
  intro label h1 h2 h3 h4 h5 h6 h7
  simp [mapEntityType, h1, h2, h3, h4, h5, h6, h7]

/-- Witness for the amended C5 theorem at the spaCy label `NORP`. -/
theorem mapEntityType_spec_witness : mapEntityType "NORP" = "other" :=
  mapEntityType_spec.2 "NORP" (by decide) (by decide) (by decide) (by decide)
    (by decide) (by decide) (by decide)

/-- C6 (confirmed): whenever the vector index is absent or the query
embedding cannot be produced, `semantic_search(query, limit)` returns exactly
the lexical `search(query, limit)` result (same contents and order, no source
filter). -/
theorem semanticSearch_fallback (ftsMatch : String → String → Bool) (st : SemState)
    (lance : Option LanceTable) (embed : String → Option (List Rat))
    (q : String) (limit : Nat)
    (h : lance = none ∨ embed q = none) :
    semanticSearch ftsMatch st lance embed q limit =
      .lexical (searchStore ftsMatch st q none limit) := by
  rcases h with h | h
  · subst h; rfl
  · cases lance with
    | none => rfl
    | some tbl => simp [semanticSearch, h]

/-- Witness for the C6 theorem: a store holding one row, no vector index. -/
theorem semanticSearch_fallback_witness :
    ((none : Option LanceTable) = none ∨
      (fun _ : String => (none : Option (List Rat))) "python tutorial" = none) ∧
    semanticSearch (fun _ _ => true)
        (addContent none (semInit ["2024-01-01T00:00:00"])
          "Python programming tutorial" "manual" none "\x7b\x7d").1
        none (fun _ => none) "python tutorial" 5 =
      .lexical (searchStore (fun _ _ => true)
        (addContent none (semInit ["2024-01-01T00:00:00"])
          "Python programming tutorial" "manual" none "\x7b\x7d").1
        "python tutorial" none 5) :=
  ⟨Or.inl rfl,
   semanticSearch_fallback (fun _ _ => true)
     (addContent none (semInit ["2024-01-01T00:00:00"])
       "Python programming tutorial" "manual" none "\x7b\x7d").1
     none (fun _ => none) "python tutorial" 5 (Or.inl rfl)⟩

/-- C8 (confirmed): when the LLM backend call fails, `RAGEngine.query`
returns a result whose answer contains `Local AI Offline`, whose context is
exactly the retrieved records (at least one row when context was found), and
whose model is the balanced model of the router configuration. -/
theorem ragQuery_offline (items : List SemRow) (cfg : List (String × String))
    (err q m : String) (hItems : items ≠ [])
    (hBal : lookupKey cfg "balanced" = some m) :
    List.IsInfix "Local AI Offline".data
      ((ragQuery items cfg (fun _ _ _ => .error err) q).answer).data ∧
    (ragQuery items cfg (fun _ _ _ => .error err) q).context = items ∧
    1 ≤ ((ragQuery items cfg (fun _ _ _ => .error err) q).context).length ∧
    (ragQuery items cfg (fun _ _ _ => .error err) q).modelUsed = m := by
  refine ⟨?_, rfl, ?_, ?_⟩
  · show List.IsInfix "Local AI Offline".data offlineAnswer.data
    decide
  · exact List.length_pos.mpr hItems
  · show route cfg "balanced" = m
    simp [route, hBal]

/-- Witness for the C8 theorem: the default router configuration (the one
`RAGEngine.__init__` builds) and one retrieved row; the balanced model is
`mistral`. -/
theorem ragQuery_offline_witness :
    ([SemRow.mk 1 "Meeting notes" "clipboard" (some 3) "2024-01-01T00:00:00" "\x7b\x7d"] ≠
      ([] : List SemRow)) ∧
    lookupKey (routerInit none) "balanced" = some "mistral" ∧
    (List.IsInfix "Local AI Offline".data
      ((ragQuery [SemRow.mk 1 "Meeting notes" "clipboard" (some 3) "2024-01-01T00:00:00" "\x7b\x7d"]
        (routerInit none) (fun _ _ _ => .error "connection refused") "what meetings?").answer).data ∧
     (ragQuery [SemRow.mk 1 "Meeting notes" "clipboard" (some 3) "2024-01-01T00:00:00" "\x7b\x7d"]
        (routerInit none) (fun _ _ _ => .error "connection refused") "what meetings?").context =
       [SemRow.mk 1 "Meeting notes" "clipboard" (some 3) "2024-01-01T00:00:00" "\x7b\x7d"] ∧
     1 ≤ ((ragQuery [SemRow.mk 1 "Meeting notes" "clipboard" (some 3) "2024-01-01T00:00:00" "\x7b\x7d"]
        (routerInit none) (fun _ _ _ => .error "connection refused") "what meetings?").context).length ∧
     (ragQuery [SemRow.mk 1 "Meeting notes" "clipboard" (some 3) "2024-01-01T00:00:00" "\x7b\x7d"]
        (routerInit none) (fun _ _ _ => .error "connection refused") "what meetings?").modelUsed =
       "mistral") :=
  ⟨by decide, by decide,
   ragQuery_offline
     [SemRow.mk 1 "Meeting notes" "clipboard" (some 3) "2024-01-01T00:00:00" "\x7b\x7d"]
     (routerInit none) "connection refused" "what meetings?" "mistral"
     (by decide) (by decide)⟩

/-- C9 (confirmed): on create/modify events, a file of exactly
`max_file_size` bytes passes `_should_process` and `process_file` stores an
event record for it, while a file of `max_file_size + 1` bytes is rejected
and no event record is produced (the store is unchanged). -/
theorem file_max_size_boundary :
    (∀ (cfg : WatcherCfg) (pd dx : Bool) (db : FileDB) (op : String) (env : FileEnv),
      op = "created" ∨ op = "modified" →
      env.isFile = true → env.statOk = true → shouldIgnore cfg env = false →
      env.size = cfg.maxFileSize →
      (textExtensions.contains env.suffix || codeExtensions.contains env.suffix ||
        documentExtensions.contains env.suffix) = true →
      shouldProcess cfg env = true ∧
      (processFile cfg pd dx db op env).2.isSome = true ∧
      ((processFile cfg pd dx db op env).1.fileHistory).length = db.fileHistory.length + 1) ∧
    (∀ (cfg : WatcherCfg) (pd dx : Bool) (db : FileDB) (op : String) (env : FileEnv),
      op = "created" ∨ op = "modified" →
      env.size = cfg.maxFileSize + 1 →
      processFile cfg pd dx db op env = (db, none)) := by
  constructor
  · intro cfg pd dx db op env hop hFile hStat hIgn hSize hExt
    have hsp : shouldProcess cfg env = true := by
      simp [shouldProcess, hFile, hStat, hIgn, hSize]
      simpa using hExt
    refine ⟨hsp, ?_, ?_⟩ <;>
      rcases hop with h | h <;> subst h <;>
        simp [processFile, hsp, storeEvent, storeVersion]
  · intro cfg pd dx db op env hop hSize
    have hsp : shouldProcess cfg env = false := by
      simp [shouldProcess, hSize, Nat.lt_succ_self]
    rcases hop with h | h <;> subst h <;> simp [processFile, hsp]

/-- Witness for the C9 theorem: a 10 MiB (the default limit) `.txt` file
under `Documents` is accepted on `created`, and an 10 MiB + 1 file is
rejected on `modified`. -/
theorem file_max_size_boundary_witness :
    (("created" : String) = "created" ∨ ("created" : String) = "modified") ∧
    (FileEnv.mk true true 10485760 ["/", "home", "u", "Documents", "a.txt"] ".txt"
        "/home/u/Documents/a.txt" "a.txt" (.ok "x") (.ok []) (.ok [])).isFile = true ∧
    shouldProcess ⟨10485760, defaultIgnorePatterns⟩
      (FileEnv.mk true true 10485760 ["/", "home", "u", "Documents", "a.txt"] ".txt"
        "/home/u/Documents/a.txt" "a.txt" (.ok "x") (.ok []) (.ok [])) = true ∧
    (processFile ⟨10485760, defaultIgnorePatterns⟩ true true (fileDBInit ["t1"]) "created"
      (FileEnv.mk true true 10485760 ["/", "home", "u", "Documents", "a.txt"] ".txt"
        "/home/u/Documents/a.txt" "a.txt" (.ok "x") (.ok []) (.ok []))).2.isSome = true ∧
    processFile ⟨10485760, defaultIgnorePatterns⟩ true true (fileDBInit ["t1"]) "modified"
      (FileEnv.mk true true 10485761 ["/", "home", "u", "Documents", "a.txt"] ".txt"
        "/home/u/Documents/a.txt" "a.txt" (.ok "x") (.ok []) (.ok [])) =
      (fileDBInit ["t1"], none) :=
  ⟨Or.inl rfl, rfl,
   (file_max_size_boundary.1 ⟨10485760, defaultIgnorePatterns⟩ true true (fileDBInit ["t1"])
     "created"
     (FileEnv.mk true true 10485760 ["/", "home", "u", "Documents", "a.txt"] ".txt"
       "/home/u/Documents/a.txt" "a.txt" (.ok "x") (.ok []) (.ok []))
     (Or.inl rfl) rfl rfl (by decide) rfl (by decide)).1,
   (file_max_size_boundary.1 ⟨10485760, defaultIgnorePatterns⟩ true true (fileDBInit ["t1"])
     "created"
     (FileEnv.mk true true 10485760 ["/", "home", "u", "Documents", "a.txt"] ".txt"
       "/home/u/Documents/a.txt" "a.txt" (.ok "x") (.ok []) (.ok []))
     (Or.inl rfl) rfl rfl (by decide) rfl (by decide)).2.1,
   file_max_size_boundary.2 ⟨10485760, defaultIgnorePatterns⟩ true true (fileDBInit ["t1"])
     "modified"
     (FileEnv.mk true true 10485761 ["/", "home", "u", "Documents", "a.txt"] ".txt"
       "/home/u/Documents/a.txt" "a.txt" (.ok "x") (.ok []) (.ok []))
     (Or.inr rfl) rfl⟩

/-- C10 (confirmed): when reading a watched text/code file raises during
create/modify processing, or when PDF parsing raises, the event is not
dropped: a `file_history` row is stored whose content is the bracketed error
marker, whose `content_hash` is the SHA-256 of that marker, and a
`file_versions` row for the marker hash is appended exactly when the
operation is `modified`. -/
theorem extraction_error_event_stored :
    (∀ (cfg : WatcherCfg) (pd dx : Bool) (db : FileDB) (op : String) (env : FileEnv)
       (e : String),
      op = "created" ∨ op = "modified" →
      (textExtensions.contains env.suffix || codeExtensions.contains env.suffix) = true →
      shouldProcess cfg env = true →
      env.read = .fail e →
      (processFile cfg pd dx db op env).2 =
        some ⟨db.clock.headD "", env.pathStr, env.name, op,
          some (sha256Hex ("[Error reading file: " ++ e ++ "]")),
          some ("[Error reading file: " ++ e ++ "]"),
          classifyFileType env.suffix, some env.size⟩ ∧
      (processFile cfg pd dx db op env).1.fileHistory =
        db.fileHistory ++ [⟨db.clock.headD "", env.pathStr, env.name, op,
          some (sha256Hex ("[Error reading file: " ++ e ++ "]")),
          some ("[Error reading file: " ++ e ++ "]"),
          classifyFileType env.suffix, some env.size⟩] ∧
      (op = "modified" →
        (processFile cfg pd dx db op env).1.fileVersions =
          db.fileVersions ++ [⟨env.pathStr, getVersionNumber db env.pathStr,
            sha256Hex ("[Error reading file: " ++ e ++ "]"), db.clock.headD "", env.size⟩]) ∧
      (op = "created" →
        (processFile cfg pd dx db op env).1.fileVersions = db.fileVersions)) ∧
    (∀ (cfg : WatcherCfg) (dx : Bool) (db : FileDB) (op : String) (env : FileEnv)
       (e : String),
      op = "created" ∨ op = "modified" →
      env.suffix = ".pdf" →
      shouldProcess cfg env = true →
      env.pdf = .fail e →
      (processFile cfg true dx db op env).2 =
        some ⟨db.clock.headD "", env.pathStr, env.name, op,
          some (sha256Hex ("[Error extracting PDF: " ++ e ++ "]")),
          some ("[Error extracting PDF: " ++ e ++ "]"), "pdf", some env.size⟩ ∧
      (op = "modified" →
        (processFile cfg true dx db op env).1.fileVersions =
          db.fileVersions ++ [⟨env.pathStr, getVersionNumber db env.pathStr,
            sha256Hex ("[Error extracting PDF: " ++ e ++ "]"), db.clock.headD "", env.size⟩])) := by
  constructor
  · intro cfg pd dx db op env e hop hExt hsp hRead
    have hcontent : extractText pd dx env = "[Error reading file: " ++ e ++ "]" := by
      simp only [extractText, hExt]
      rw [hRead]
      simp [extractTextFromTxt]
    rcases hop with h | h <;> subst h <;>
      simp [processFile, hsp, storeEvent, storeVersion, getVersionNumber, hcontent]
  · intro cfg dx db op env e hop hSuf hsp hPdf
    have hText : textExtensions.contains env.suffix = false := by
      rw [hSuf]; decide
    have hCode : codeExtensions.contains env.suffix = false := by
      rw [hSuf]; decide
    have hcontent : extractText true dx env = "[Error extracting PDF: " ++ e ++ "]" := by
      have h1 : ¬((".pdf" : String) ∈ textExtensions ∨ (".pdf" : String) ∈ codeExtensions) := by
        decide
      simp [extractText, hSuf, extractTextFromPdf, hPdf, h1]
    have hclass : classifyFileType env.suffix = "pdf" := by
      rw [hSuf]; decide
    rcases hop with h | h <;> subst h <;>
      simp [processFile, hsp, storeEvent, storeVersion, getVersionNumber, hcontent, hclass]

/-- Witness for the C10 theorem: a modified `.txt` file whose read raises
`boom`; the stored event carries the bracketed marker and its hash, and a
version row is appended for the marker hash. -/
theorem extraction_error_event_stored_witness :
    (("modified" : String) = "created" ∨ ("modified" : String) = "modified") ∧
    (textExtensions.contains
        (FileEnv.mk true true 7 ["/", "home", "u", "Documents", "b.txt"] ".txt"
          "/home/u/Documents/b.txt" "b.txt" (.fail "boom") (.ok []) (.ok [])).suffix ||
      codeExtensions.contains
        (FileEnv.mk true true 7 ["/", "home", "u", "Documents", "b.txt"] ".txt"
          "/home/u/Documents/b.txt" "b.txt" (.fail "boom") (.ok []) (.ok [])).suffix) = true ∧
    shouldProcess ⟨10485760, defaultIgnorePatterns⟩
      (FileEnv.mk true true 7 ["/", "home", "u", "Documents", "b.txt"] ".txt"
        "/home/u/Documents/b.txt" "b.txt" (.fail "boom") (.ok []) (.ok [])) = true ∧
    (processFile ⟨10485760, defaultIgnorePatterns⟩ true true (fileDBInit ["t1"]) "modified"
      (FileEnv.mk true true 7 ["/", "home", "u", "Documents", "b.txt"] ".txt"
        "/home/u/Documents/b.txt" "b.txt" (.fail "boom") (.ok []) (.ok []))).2 =
      some ⟨(fileDBInit ["t1"]).clock.headD "", "/home/u/Documents/b.txt", "b.txt", "modified",
        some (sha256Hex "[Error reading file: boom]"),
        some "[Error reading file: boom]", classifyFileType ".txt", some 7⟩ ∧
    ("modified" = "modified" →
      (processFile ⟨10485760, defaultIgnorePatterns⟩ true true (fileDBInit ["t1"]) "modified"
        (FileEnv.mk true true 7 ["/", "home", "u", "Documents", "b.txt"] ".txt"
          "/home/u/Documents/b.txt" "b.txt" (.fail "boom") (.ok []) (.ok []))).1.fileVersions =
        (fileDBInit ["t1"]).fileVersions ++
          [⟨"/home/u/Documents/b.txt",
            getVersionNumber (fileDBInit ["t1"]) "/home/u/Documents/b.txt",
            sha256Hex "[Error reading file: boom]", (fileDBInit ["t1"]).clock.headD "", 7⟩]) :=
  ⟨Or.inr rfl, by decide, by decide,
   ((extraction_error_event_stored.1 ⟨10485760, defaultIgnorePatterns⟩ true true
      (fileDBInit ["t1"]) "modified"
      (FileEnv.mk true true 7 ["/", "home", "u", "Documents", "b.txt"] ".txt"
        "/home/u/Documents/b.txt" "b.txt" (.fail "boom") (.ok []) (.ok [])) "boom"
      (Or.inr rfl) (by decide) (by decide) rfl)).1,
   ((extraction_error_event_stored.1 ⟨10485760, defaultIgnorePatterns⟩ true true
      (fileDBInit ["t1"]) "modified"
      (FileEnv.mk true true 7 ["/", "home", "u", "Documents", "b.txt"] ".txt"
        "/home/u/Documents/b.txt" "b.txt" (.fail "boom") (.ok []) (.ok [])) "boom"
      (Or.inr rfl) (by decide) (by decide) rfl)).2.2.1⟩

/-- C7 (counterexample): the `file_versions` table is not deduplicated by
content hash.  Two successive `modified` events for the same path with the
same content (`v2`) append two version rows with the same `content_hash`. -/
theorem fileVersion_duplicate_hash :
    versionHashUnique
      (processFile ⟨10485760, defaultIgnorePatterns⟩ true true
        (processFile ⟨10485760, defaultIgnorePatterns⟩ true true (fileDBInit ["t1", "t2"])
          "modified"
          (FileEnv.mk true true 2 ["/", "home", "u", "Documents", "notes.txt"] ".txt"
            "/home/u/Documents/notes.txt" "notes.txt" (.ok "v2") (.ok []) (.ok []))).1
        "modified"
        (FileEnv.mk true true 2 ["/", "home", "u", "Documents", "notes.txt"] ".txt"
          "/home/u/Documents/notes.txt" "notes.txt" (.ok "v2") (.ok []) (.ok []))).1.fileVersions
      = false := by decide

/-- C7 (amended): `file_versions` rows are appended only while processing a
`modified` operation (never on `created` or `deleted`), and a processed
`modified` event appends exactly one row whose version is the maximum stored
version for the path plus one; the table is not deduplicated by content
hash. -/
theorem fileVersion_only_on_modified :
    (∀ (cfg : WatcherCfg) (pd dx : Bool) (db : FileDB) (op : String) (env : FileEnv),
      op ≠ "modified" →
      (processFile cfg pd dx db op env).1.fileVersions = db.fileVersions) ∧
    (∀ (cfg : WatcherCfg) (pd dx : Bool) (db : FileDB) (env : FileEnv),
      shouldProcess cfg env = true →
      (processFile cfg pd dx db "modified" env).1.fileVersions =
        db.fileVersions ++ [⟨env.pathStr, getVersionNumber db env.pathStr,
          sha256Hex (extractText pd dx env), db.clock.headD "", env.size⟩]) := by
  constructor
  · intro cfg pd dx db op env hop
    have hbeq : (op == "modified") = false := by
      simpa using hop
    simp only [processFile]
    split
    · split
      · rfl
      · split
        · rfl
        · simp [storeEvent]
    · split
      · rfl
      · simp [storeEvent, hbeq]
  · intro cfg pd dx db env hsp
    have hdel : (("modified" : String) == "deleted") = false := by decide
    simp [processFile, hdel, hsp, storeEvent, storeVersion, getVersionNumber]

/-- Witness for the amended C7 theorem: a `created` event appends no version
row, and a processed `modified` event appends the max-plus-one row. -/
theorem fileVersion_only_on_modified_witness :
    (("created" : String) ≠ "modified") ∧
    (processFile ⟨10485760, defaultIgnorePatterns⟩ true true (fileDBInit ["t1"]) "created"
      (FileEnv.mk true true 2 ["/", "home", "u", "Documents", "notes.txt"] ".txt"
        "/home/u/Documents/notes.txt" "notes.txt" (.ok "v1") (.ok []) (.ok []))).1.fileVersions =
      (fileDBInit ["t1"]).fileVersions ∧
    shouldProcess ⟨10485760, defaultIgnorePatterns⟩
      (FileEnv.mk true true 2 ["/", "home", "u", "Documents", "notes.txt"] ".txt"
        "/home/u/Documents/notes.txt" "notes.txt" (.ok "v2") (.ok []) (.ok [])) = true ∧
    (processFile ⟨10485760, defaultIgnorePatterns⟩ true true (fileDBInit ["t1"]) "modified"
      (FileEnv.mk true true 2 ["/", "home", "u", "Documents", "notes.txt"] ".txt"
        "/home/u/Documents/notes.txt" "notes.txt" (.ok "v2") (.ok []) (.ok []))).1.fileVersions =
      (fileDBInit ["t1"]).fileVersions ++
        [⟨"/home/u/Documents/notes.txt",
          getVersionNumber (fileDBInit ["t1"]) "/home/u/Documents/notes.txt",
          sha256Hex (extractText true true
            (FileEnv.mk true true 2 ["/", "home", "u", "Documents", "notes.txt"] ".txt"
              "/home/u/Documents/notes.txt" "notes.txt" (.ok "v2") (.ok []) (.ok []))),
          (fileDBInit ["t1"]).clock.headD "", 2⟩] :=
  ⟨by decide,
   fileVersion_only_on_modified.1 ⟨10485760, defaultIgnorePatterns⟩ true true
     (fileDBInit ["t1"]) "created"
     (FileEnv.mk true true 2 ["/", "home", "u", "Documents", "notes.txt"] ".txt"
       "/home/u/Documents/notes.txt" "notes.txt" (.ok "v1") (.ok []) (.ok []))
     (by decide),
   by decide,
   fileVersion_only_on_modified.2 ⟨10485760, defaultIgnorePatterns⟩ true true
     (fileDBInit ["t1"])
     (FileEnv.mk true true 2 ["/", "home", "u", "Documents", "notes.txt"] ".txt"
       "/home/u/Documents/notes.txt" "notes.txt" (.ok "v2") (.ok []) (.ok []))
     (by decide)⟩

/-- Appending a value distinct from the last element preserves pairwise
distinctness of adjacent elements. -/
theorem adjacentDistinct_concat : ∀ (l : List String) (x : String),
    adjacentDistinct l = true →
    (∀ y, l.getLast? = some y → y ≠ x) →
    adjacentDistinct (l ++ [x]) = true
  | [], _, _, _ => rfl
  | [a], x, _, h2 => by
    have hax : a ≠ x := h2 a rfl
    show (a != x && adjacentDistinct [x]) = true
    simp [adjacentDistinct, hax]
  | a :: b :: t, x, h1, h2 => by
    have h1x : (a != b && adjacentDistinct (b :: t)) = true := h1
    rw [Bool.and_eq_true] at h1x
    have hrec := adjacentDistinct_concat (b :: t) x h1x.2
      (fun y hy => h2 y (by rw [List.getLast?_cons_cons]; exact hy))
    show (a != b && adjacentDistinct (b :: (t ++ [x]))) = true
    rw [Bool.and_eq_true]
    exact ⟨h1x.1, hrec⟩

/-- `getLast?` commutes with `map`. -/
theorem getLast?_map {α β : Type} (f : α → β) : ∀ l : List α,
    (l.map f).getLast? = l.getLast?.map f
  | [] => rfl
  | [_] => rfl
  | a :: b :: t => by
    rw [List.map_cons, List.map_cons, List.getLast?_cons_cons,
      List.getLast?_cons_cons, ← List.map_cons]
    exact getLast?_map f (b :: t)

/-- The invariant maintained by the clipboard monitor: stored hashes are
adjacent-distinct, and `last_hash` is the hash of the last stored row. -/
def clipInv (st : ClipState) : Prop :=
  adjacentDistinct (st.rows.map (fun e => e.contentHash)) = true ∧
  ∀ r, st.rows.getLast? = some r → st.lastHash = some r.contentHash

theorem clipInv_push (st : ClipState) (content ctype app : String) (h : clipInv st)
    (hdup : st.lastHash ≠ some (sha256Hex content)) :
    clipInv ⟨some (sha256Hex content),
      st.rows ++ [⟨st.clock.headD "", sha256Hex content, content, ctype, app⟩],
      st.clock.tail⟩ := by
  constructor
  · rw [List.map_append]
    apply adjacentDistinct_concat _ _ h.1
    intro y hy
    rw [getLast?_map] at hy
    match hlast : st.rows.getLast? with
    | none => rw [hlast] at hy; cases hy
    | some r0 =>
      rw [hlast] at hy
      cases hy
      have hlh := h.2 r0 hlast
      intro hcontra
      apply hdup
      rw [hlh]
      simpa using hcontra
  · intro r hr
    rw [List.getLast?_concat] at hr
    cases hr
    rfl

theorem clipInv_step (classify : String → String) (sourceApp : String)
    (maxContentLength : Nat) (st : ClipState) (clip : String) (h : clipInv st) :
    clipInv (clipCaptureOnce classify sourceApp maxContentLength st clip).1 := by
  unfold clipCaptureOnce
  split
  · exact h
  · split
    all_goals
      dsimp only
      split
      · exact h
      · next hdup =>
          exact clipInv_push st _ _ _ h (fun hc => hdup (by rw [hc]; simp))

theorem clipRun_inv (classify : String → String) (maxContentLength : Nat) :
    ∀ (ticks : List (String × String)) (st : ClipState), clipInv st →
      clipInv (clipRun classify maxContentLength st ticks)
  | [], _, h => h
  | t :: ts, st, h =>
    clipRun_inv classify maxContentLength ts _
      (clipInv_step classify t.2 maxContentLength st t.1 h)

theorem lookupHash_setHash_self : ∀ (l : List (Nat × String)) (idx : Nat) (h : String),
    lookupHash (setHash l idx h) idx = some h
  | [], idx, h => by simp [setHash, lookupHash]
  | (k, v) :: rest, idx, h => by
    by_cases hkeq : k = idx
    · subst hkeq
      simp [setHash, lookupHash]
    · have hk : (k == idx) = false := beq_eq_false_iff_ne.mpr hkeq
      simp [setHash, lookupHash, hk, lookupHash_setHash_self rest idx h]

theorem lookupHash_setHash_ne : ∀ (l : List (Nat × String)) (idx idx₂ : Nat) (h : String),
    idx₂ ≠ idx → lookupHash (setHash l idx h) idx₂ = lookupHash l idx₂
  | [], idx, idx₂, h, hne => by
    have hk₂ : (idx == idx₂) = false := beq_eq_false_iff_ne.mpr (fun hc => hne hc.symm)
    simp [setHash, lookupHash, hk₂]
  | (k, v) :: rest, idx, idx₂, h, hne => by
    by_cases hkeq : k = idx
    · subst hkeq
      have hk₂ : (k == idx₂) = false := beq_eq_false_iff_ne.mpr (fun hc => hne hc.symm)
      simp [setHash, lookupHash, hk₂]
    · have hk : (k == idx) = false := beq_eq_false_iff_ne.mpr hkeq
      by_cases hkeq₂ : k = idx₂
      · subst hkeq₂
        simp [setHash, lookupHash, hk]
      · have hk₂ : (k == idx₂) = false := beq_eq_false_iff_ne.mpr hkeq₂
        simp [setHash, lookupHash, hk, hk₂, lookupHash_setHash_ne rest idx idx₂ h hne]

/-- The invariant maintained by the screen capturer: for every monitor
index, the stored hashes of that monitor are adjacent-distinct and the
per-monitor `last_hashes` entry is the hash of its last stored row. -/
def screenInv (st : ScreenState) : Prop :=
  ∀ idx : Nat,
    adjacentDistinct ((st.rows.filter (fun r => r.monitorIndex == idx)).map
      (fun r => r.screenHash)) = true ∧
    ∀ r, (st.rows.filter (fun r => r.monitorIndex == idx)).getLast? = some r →
      lookupHash st.lastHashes idx = some r.screenHash

theorem screenInv_step (st : ScreenState) (f : Frame) (h : screenInv st) :
    screenInv (captureMonitor st f).1 := by
  unfold captureMonitor
  split
  · exact h
  · next hchg =>
    have hsig : hasSignificantChange st.lastHashes f.imageHash f.monitorIndex = true := by
      simpa using hchg
    dsimp only
    intro idx
    by_cases hidx : f.monitorIndex = idx
    · subst hidx
      have hfilt : List.filter (fun r => r.monitorIndex == f.monitorIndex)
          (st.rows ++ [⟨st.clock.headD "", f.imageHash, f.text, f.monitorIndex⟩]) =
          List.filter (fun r => r.monitorIndex == f.monitorIndex) st.rows ++
            [⟨st.clock.headD "", f.imageHash, f.text, f.monitorIndex⟩] := by
        rw [List.filter_append]
        simp [List.filter]
      constructor
      · rw [hfilt, List.map_append]
        apply adjacentDistinct_concat _ _ (h f.monitorIndex).1
        intro y hy
        rw [getLast?_map] at hy
        match hlast : (st.rows.filter (fun r => r.monitorIndex == f.monitorIndex)).getLast? with
        | none => rw [hlast] at hy; cases hy
        | some r0 =>
          rw [hlast] at hy
          cases hy
          have hlh := (h f.monitorIndex).2 r0 hlast
          unfold hasSignificantChange at hsig
          rw [hlh] at hsig
          intro hcontra
          have hr0 : r0.screenHash = f.imageHash := by simpa using hcontra
          rw [hr0] at hsig
          simp at hsig
      · intro r hr
        rw [hfilt, List.getLast?_concat] at hr
        cases hr
        exact lookupHash_setHash_self st.lastHashes f.monitorIndex f.imageHash
    · have hrow : ((⟨st.clock.headD "", f.imageHash, f.text, f.monitorIndex⟩ :
          ScreenRow).monitorIndex == idx) = false := beq_eq_false_iff_ne.mpr hidx
      have hfilt : List.filter (fun r => r.monitorIndex == idx)
          (st.rows ++ [⟨st.clock.headD "", f.imageHash, f.text, f.monitorIndex⟩]) =
          List.filter (fun r => r.monitorIndex == idx) st.rows := by
        rw [List.filter_append]
        simp [List.filter, hrow]
      have hlook := lookupHash_setHash_ne st.lastHashes f.monitorIndex idx f.imageHash
        (fun hc => hidx hc.symm)
      constructor
      · rw [hfilt]
        exact (h idx).1
      · intro r hr
        rw [hfilt] at hr
        rw [hlook]
        exact (h idx).2 r hr

theorem screenRun_inv : ∀ (frames : List Frame) (st : ScreenState), screenInv st →
    screenInv (screenRun st frames)
  | [], _, h => h
  | f :: fs, st, h => screenRun_inv fs _ (screenInv_step st f h)

/-- C2 (counterexample): consecutive `captures` rows can share a perceptual
hash.  Screen deduplication is per monitor index: in `all` (or `specific`)
mode with two monitors whose grabbed images hash equally, `capture_once`
stores two consecutive rows with the same `perceptual_hash` from a fresh
state. -/
theorem screen_consecutive_equal_hash :
    adjacentDistinct
      (((screenRun (screenInit ["t1", "t2"]) [⟨1, "h", "x"⟩, ⟨2, "h", "y"⟩]).rows).map
        (fun r => r.screenHash)) = false := by decide

/-- C2 (amended): after any sequence of capture operations from a fresh
state, two consecutive `clipboard_history` rows never share `content_hash`,
and, per monitor index, two consecutive `captures` rows stored for the same
monitor never share `perceptual_hash` (rows of different monitors may). -/
theorem capture_dedup_invariants :
    (∀ (classify : String → String) (maxContentLength : Nat) (clock : List String)
       (ticks : List (String × String)),
      adjacentDistinct
        (((clipRun classify maxContentLength (clipInit clock) ticks).rows).map
          (fun e => e.contentHash)) = true) ∧
    (∀ (clock : List String) (frames : List Frame) (idx : Nat),
      adjacentDistinct
        ((((screenRun (screenInit clock) frames).rows).filter
          (fun r => r.monitorIndex == idx)).map (fun r => r.screenHash)) = true) := by
  constructor
  · intro classify maxContentLength clock ticks
    exact (clipRun_inv classify maxContentLength ticks (clipInit clock)
      ⟨rfl, fun r hr => nomatch hr⟩).1
  · intro clock frames idx
    exact (screenRun_inv frames (screenInit clock)
      (fun _ => ⟨rfl, fun r hr => nomatch hr⟩) idx).1

/-- `add` only appends rows, so an existing `(source, source_ref)` stays
present. -/
theorem hasSourceRef_addContent (nlp : Option (String → List SpacyEnt))
    (st : SemState) (content stype : String) (sid : Option Nat) (meta s₀ : String)
    (r₀ : Nat) (h : hasSourceRef st s₀ r₀ = true) :
    hasSourceRef (addContent nlp st content stype sid meta).1 s₀ r₀ = true := by
  unfold hasSourceRef at h ⊢
  unfold addContent
  dsimp only
  rw [List.any_append, h]
  rfl

/-- `add` with a source reference makes that reference present. -/
theorem hasSourceRef_addContent_self (nlp : Option (String → List SpacyEnt))
    (st : SemState) (content s : String) (i : Nat) (meta : String) :
    hasSourceRef (addContent nlp st content s (some i) meta).1 s i = true := by
  unfold hasSourceRef addContent
  dsimp only
  rw [List.any_append]
  simp

theorem hasSourceRef_syncStep (nlp : Option (String → List SpacyEnt)) (s s₀ : String)
    (st : SemState) (row : Nat × Option String) (r₀ : Nat)
    (h : hasSourceRef st s₀ r₀ = true) :
    hasSourceRef (syncStep nlp s st row) s₀ r₀ = true := by
  unfold syncStep
  match row.2 with
  | none => exact h
  | some t =>
    dsimp only
    split
    · exact h
    · split
      · exact h
      · exact hasSourceRef_addContent nlp st t s (some row.1) _ s₀ r₀ h

theorem hasSourceRef_syncTable (nlp : Option (String → List SpacyEnt)) (s s₀ : String) :
    ∀ (rows : List (Nat × Option String)) (st : SemState) (r₀ : Nat),
      hasSourceRef st s₀ r₀ = true →
      hasSourceRef (syncTable nlp s st rows) s₀ r₀ = true
  | [], _, _, h => h
  | row :: rest, st, r₀, h =>
    hasSourceRef_syncTable nlp s s₀ rest (syncStep nlp s st row) r₀
      (hasSourceRef_syncStep nlp s s₀ st row r₀ h)

/-- After one sync step for a row with non-empty text, the reference of that
row is present. -/
theorem syncStep_covers (nlp : Option (String → List SpacyEnt)) (s : String)
    (st : SemState) (row : Nat × Option String) (t : String)
    (hrow : row.2 = some t) (ht : (t == "") = false) :
    hasSourceRef (syncStep nlp s st row) s row.1 = true := by
  unfold syncStep
  rw [hrow]
  try dsimp only
  rw [ht]
  simp only [Bool.false_eq_true, if_false]
  split
  · next hhas => exact hhas
  · exact hasSourceRef_addContent_self nlp st t s row.1 _

/-- After a sync loop, every row of the table with non-empty text has its
reference present. -/
theorem syncTable_covers (nlp : Option (String → List SpacyEnt)) (s : String) :
    ∀ (rows : List (Nat × Option String)) (st : SemState) (row : Nat × Option String),
      row ∈ rows → ∀ t, row.2 = some t → (t == "") = false →
      hasSourceRef (syncTable nlp s st rows) s row.1 = true
  | [], _, _, hmem, _, _, _ => absurd hmem (List.not_mem_nil _)
  | r :: rest, st, row, hmem, t, hrow, ht => by
    rcases List.mem_cons.mp hmem with heq | hmem₂
    · subst heq
      exact hasSourceRef_syncTable nlp s s rest (syncStep nlp s st row) row.1
        (syncStep_covers nlp s st row t hrow ht)
    · exact syncTable_covers nlp s rest (syncStep nlp s st r) row hmem₂ t hrow ht

/-- A sync loop over a table all of whose non-empty rows already have their
references present leaves the store untouched. -/
theorem syncTable_nochange (nlp : Option (String → List SpacyEnt)) (s : String) :
    ∀ (rows : List (Nat × Option String)) (st : SemState),
      (∀ row ∈ rows, ∀ t, row.2 = some t → (t == "") = false →
        hasSourceRef st s row.1 = true) →
      syncTable nlp s st rows = st
  | [], _, _ => rfl
  | row :: rest, st, h => by
    have hstep : syncStep nlp s st row = st := by
      unfold syncStep
      match hrow : row.2 with
      | none => rfl
      | some t =>
        try dsimp only
        by_cases ht : (t == "") = true
        · rw [ht]
          rfl
        · rw [Bool.not_eq_true] at ht
          rw [ht]
          simp only [Bool.false_eq_true, if_false]
          rw [if_pos (h row (List.mem_cons_self row rest) t hrow ht)]
    show syncTable nlp s (syncStep nlp s st row) rest = st
    rw [hstep]
    exact syncTable_nochange nlp s rest st
      (fun r hr t hrt ht => h r (List.mem_cons_of_mem row hr) t hrt ht)

/-- Appending a row whose `(source, source_ref)` pair is absent preserves
pair uniqueness. -/
theorem noDupPairs_concat : ∀ (l : List SemRow) (row : SemRow),
    noDupPairs l = true →
    (∀ i, row.sourceId = some i →
      l.any (fun r => r.sourceType == row.sourceType && r.sourceId == some i) = false) →
    noDupPairs (l ++ [row]) = true
  | [], row, _, _ => by
    show noDupPairs [row] = true
    unfold noDupPairs
    cases row.sourceId <;> simp [noDupPairs]
  | r :: l, row, h1, h2 => by
    have h1x : ((match r.sourceId with
        | none => true
        | some i => !(l.any (fun r₂ => r₂.sourceType == r.sourceType && r₂.sourceId == some i)))
        && noDupPairs l) = true := h1
    rw [Bool.and_eq_true] at h1x
    have hrec := noDupPairs_concat l row h1x.2 (fun i hi => by
      have := h2 i hi
      rw [List.any_cons, Bool.or_eq_false_iff] at this
      exact this.2)
    show ((match r.sourceId with
        | none => true
        | some i => !((l ++ [row]).any
            (fun r₂ => r₂.sourceType == r.sourceType && r₂.sourceId == some i)))
        && noDupPairs (l ++ [row])) = true
    rw [Bool.and_eq_true]
    refine ⟨?_, hrec⟩
    match hsid : r.sourceId with
    | none => rfl
    | some i =>
      try dsimp only
      rw [List.any_append]
      have hl : l.any (fun r₂ => r₂.sourceType == r.sourceType && r₂.sourceId == some i) =
          false := by
        have := h1x.1
        rw [hsid] at this
        simpa using this
      have hrow : ((row.sourceType == r.sourceType) && (row.sourceId == some i)) = false := by
        by_cases hty : row.sourceType = r.sourceType
        · by_cases hid : row.sourceId = some i
          · exfalso
            have h2i := h2 i hid
            rw [List.any_cons, Bool.or_eq_false_iff] at h2i
            have hr := h2i.1
            rw [hsid, hty] at hr
            simp at hr
          · simp [hid]
        · simp [hty]
      simp only [List.any_cons, List.any_nil, hl, hrow]
      rfl

/-- `add` with an absent `(source, source_ref)` pair preserves pair
uniqueness. -/
theorem noDupPairs_addContent (nlp : Option (String → List SpacyEnt)) (st : SemState)
    (content s : String) (i : Nat) (meta : String)
    (h1 : noDupPairs st.rows = true) (h2 : hasSourceRef st s i = false) :
    noDupPairs ((addContent nlp st content s (some i) meta).1).rows = true := by
  unfold addContent
  dsimp only
  apply noDupPairs_concat st.rows _ h1
  intro j hj
  have hji : j = i := by
    simpa using hj.symm
  subst hji
  exact h2

theorem noDupPairs_syncStep (nlp : Option (String → List SpacyEnt)) (s : String)
    (st : SemState) (row : Nat × Option String) (h : noDupPairs st.rows = true) :
    noDupPairs (syncStep nlp s st row).rows = true := by
  unfold syncStep
  match row.2 with
  | none => exact h
  | some t =>
    try dsimp only
    split
    · exact h
    · split
      · exact h
      · next hhas =>
        rw [Bool.not_eq_true] at hhas
        exact noDupPairs_addContent nlp st t s row.1 _ h hhas

theorem noDupPairs_syncTable (nlp : Option (String → List SpacyEnt)) (s : String) :
    ∀ (rows : List (Nat × Option String)) (st : SemState),
      noDupPairs st.rows = true → noDupPairs (syncTable nlp s st rows).rows = true
  | [], _, h => h
  | row :: rest, st, h =>
    noDupPairs_syncTable nlp s rest (syncStep nlp s st row)
      (noDupPairs_syncStep nlp s st row h)

/-- C1 (counterexample): `SemanticStore.add` performs no
`(source, source_ref)` uniqueness check.  Calling `add` twice with the same
`("screen", 1)` reference stores two rows with that pair, so the pair is not
unique and re-ingestion through `add` is not a no-op. -/
theorem add_duplicate_source_ref :
    noDupPairs
      ((addContent none
        (addContent none (semInit ["t1", "t2"]) "hello" "screen" (some 1) "\x7b\x7d").1
        "hello" "screen" (some 1) "\x7b\x7d").1).rows = false ∧
    (addContent none
        (addContent none (semInit ["t1", "t2"]) "hello" "screen" (some 1) "\x7b\x7d").1
        "hello" "screen" (some 1) "\x7b\x7d").1 ≠
      (addContent none (semInit ["t1", "t2"]) "hello" "screen" (some 1) "\x7b\x7d").1 := by
  constructor
  · decide
  · decide

/-- C1 (amended): ingestion through `sync_from_captures` is idempotent — a
second sync is a no-op on the store state — and it preserves uniqueness of
present `(source, source_ref)` pairs; `SemanticStore.add` itself performs no
uniqueness check. -/
theorem sync_idempotent_and_unique :
    (∀ (nlp : Option (String → List SpacyEnt)) (tabs : CaptureTables) (st : SemState),
      syncFromCaptures nlp tabs (syncFromCaptures nlp tabs st) =
        syncFromCaptures nlp tabs st) ∧
    (∀ (nlp : Option (String → List SpacyEnt)) (tabs : CaptureTables) (st : SemState),
      noDupPairs st.rows = true →
      noDupPairs (syncFromCaptures nlp tabs st).rows = true) := by
  constructor
  · intro nlp tabs st
    unfold syncFromCaptures
    have hscreen : syncTable nlp "screen"
        (syncTable nlp "file"
          (syncTable nlp "clipboard"
            (syncTable nlp "screen" st tabs.captures) tabs.clipboard) tabs.fileHistory)
        tabs.captures =
        syncTable nlp "file"
          (syncTable nlp "clipboard"
            (syncTable nlp "screen" st tabs.captures) tabs.clipboard) tabs.fileHistory := by
      apply syncTable_nochange
      intro row hmem t hrow ht
      apply hasSourceRef_syncTable nlp "file" "screen"
      apply hasSourceRef_syncTable nlp "clipboard" "screen"
      exact syncTable_covers nlp "screen" tabs.captures st row hmem t hrow ht
    rw [hscreen]
    have hclip : syncTable nlp "clipboard"
        (syncTable nlp "file"
          (syncTable nlp "clipboard"
            (syncTable nlp "screen" st tabs.captures) tabs.clipboard) tabs.fileHistory)
        tabs.clipboard =
        syncTable nlp "file"
          (syncTable nlp "clipboard"
            (syncTable nlp "screen" st tabs.captures) tabs.clipboard) tabs.fileHistory := by
      apply syncTable_nochange
      intro row hmem t hrow ht
      apply hasSourceRef_syncTable nlp "file" "clipboard"
      exact syncTable_covers nlp "clipboard" tabs.clipboard _ row hmem t hrow ht
    rw [hclip]
    apply syncTable_nochange
    intro row hmem t hrow ht
    exact syncTable_covers nlp "file" tabs.fileHistory _ row hmem t hrow ht
  · intro nlp tabs st h
    unfold syncFromCaptures
    exact noDupPairs_syncTable nlp "file" tabs.fileHistory _
      (noDupPairs_syncTable nlp "clipboard" tabs.clipboard _
        (noDupPairs_syncTable nlp "screen" tabs.captures _ h))

/-- Witness for the amended C1 theorem: syncing one screen capture row into
an empty store preserves pair uniqueness. -/
theorem sync_idempotent_and_unique_witness :
    noDupPairs (semInit ["t1"]).rows = true ∧
    noDupPairs
      (syncFromCaptures none
        (CaptureTables.mk [(1, some "hello")] [] []) (semInit ["t1"])).rows = true :=
  ⟨by decide,
   sync_idempotent_and_unique.2 none (CaptureTables.mk [(1, some "hello")] [] [])
     (semInit ["t1"]) (by decide)⟩
